import Mathlib

/-!
Verification development for the BugHunt Live real-time match engine
(Node.js backend).  This file gives a shallow embedding of the core of
the repository:

* `src/handlers/gameHandlers.js` (submit_answer handler, disconnect
  handler, handleBotAnswer, sendQuestion, sendRoundScores, nextQuestion,
  endGame, startGame, the timing constants),
* `src/services/QuestionService.js` (checkAnswer, getTimeLimit),
* `services/MatchmakingService.js` (addToQueue, handlePlayerDisconnect,
  createMatch state shape, getPreferenceKey).

Mutable JS state (the per-match game object held in
`MatchmakingService.activeGames`) is modelled by explicit state passing
over a `World` record holding one game, the list of pending `setTimeout`
callbacks (timers), and the list of socket emissions performed so far.
The single-threaded Node event loop is modelled by an executable
scheduler (`fireDue` / `runScript` / `runFull`) that fires pending
timers in order of their scheduled time (FIFO on ties) interleaved with
externally supplied client events (answer submissions, bot answer
deliveries, disconnects).

Persistence calls (`db.*`), console logging, and socket-room plumbing
are external effects with no bearing on match state and are not
modelled.  Question content fields (code block, prompt text, choices,
explanation) are inert for all properties considered and are omitted
from the `Question` record; only `id` and `correctAnswer` drive
behaviour.
-/

/-- One recorded answer, mirroring the `answerData` object built in the
submit_answer handler and in handleBotAnswer
(`src/handlers/gameHandlers.js`). -/
structure Answer where
  questionId : String
  answerId : String
  isCorrect : Bool
  points : Nat
  timestamp : Nat
  responseTime : Nat
deriving DecidableEq

/-- A participant entry of `game.players` as created by
`MatchmakingService.createMatch` / `createMatchWithBots`.  The JS map is
keyed by `socketId`; here the insertion-ordered value list is kept, and
lookups go through `findPlayer` below. -/
structure Player where
  id : String
  socketId : String
  username : String
  score : Nat
  answers : List Answer
  isActive : Bool
  isBot : Bool
deriving DecidableEq

/-- A question; content fields other than `id` and `correctAnswer` are
omitted (inert for the behaviour modelled here). -/
structure Question where
  id : String
  correctAnswer : String
deriving DecidableEq

/-- Match lifecycle status, `waiting -> in_progress -> completed`
(the string field `status` of the JS game state). -/
inductive Status where
  | waiting
  | in_progress
  | completed
deriving DecidableEq

/-- The per-match game state object built by
`MatchmakingService.createMatch`.  Timestamps that feed only persistence
or logging (`createdAt`, `startedAt`) are omitted.
`questionTimeLimit` is 0 until `tryStartMatchForPreference` assigns it
(JS: the field is `undefined` until then, and `undefined`/`0` are both
falsy where it is read). -/
structure Game where
  players : List Player
  language : String
  difficulty : String
  currentQuestionIndex : Nat
  status : Status
  questions : List Question
  questionStartTime : Nat
  questionTimeLimit : Nat
deriving DecidableEq

/-- One entry of the `round_scores` broadcast payload built in
`sendRoundScores`. -/
structure ScoreEntry where
  playerId : String
  username : String
  score : Nat
  isCorrect : Bool
  responseTime : Option Nat
deriving DecidableEq

/-- One entry of the `game_end` broadcast payload built in `endGame`
(rank is written onto the entry by the forEach after sorting; it is 0
before that assignment). -/
structure FinalEntry where
  id : String
  username : String
  score : Nat
  correctAnswers : Nat
  totalAnswers : Nat
  isBot : Bool
  rank : Nat
deriving DecidableEq

/-- A socket emission performed by the handlers (payload fields that
matter to the properties below). -/
inductive Emit where
  | errorMsg (sockId msg : String)
  | answerResult (sockId : String) (correct : Bool) (pointsEarned : Nat)
  | roundScores (scores : List ScoreEntry)
  | playerLeft (playerId username : String)
  | questionSent (questionNumber totalQuestions : Nat)
  | gameStart (totalQuestions questionTimeLimitSecs : Nat)
  | gameEnd (finalScores : List FinalEntry) (winner : Option FinalEntry)
deriving DecidableEq

/-- A pending `setTimeout` callback.  `deadline` is the auto-advance
timeout scheduled at the end of `sendQuestion` (closing over the id of
the question just sent); `advance` is the `nextQuestion` call scheduled
after `NEXT_QUESTION_DELAY`; `firstQuestion` is the 1000 ms delay in
`startGame` before the first `sendQuestion`. -/
inductive Timer where
  | deadline (qid : String) (fireAt : Nat)
  | advance (fireAt : Nat)
  | firstQuestion (fireAt : Nat)
deriving DecidableEq

def Timer.fireAt : Timer → Nat
  | .deadline _ t => t
  | .advance t => t
  | .firstQuestion t => t

/-- The modelled world: one live game, the question pool the
QuestionService resolves for the match language, the pending timers and
the emission log (oldest first). -/
structure World where
  game : Game
  pool : List Question
  timers : List Timer
  log : List Emit
deriving DecidableEq

-- Constants from the top of `src/handlers/gameHandlers.js`.

def QUESTIONS_PER_GAME : Nat := 5
def QUESTION_TIME_LIMIT : Nat := 30000
def NEXT_QUESTION_DELAY : Nat := 3000
def GAME_START_COUNTDOWN : Nat := 3000

/-- `game.players.get(socket.id)` on the insertion-ordered list. -/
def findPlayer (l : List Player) (s : String) : Option Player :=
  l.find? (fun p => p.socketId == s)

/-- In-place mutation of the map entry for socket `s` (JS mutates the
object held in the map; here the first entry with that socket id is
replaced). -/
def updatePlayer (l : List Player) (s : String) (f : Player → Player) : List Player :=
  match l with
  | [] => []
  | p :: ps => if p.socketId == s then f p :: ps else p :: updatePlayer ps s f

/-- Result of `QuestionService.checkAnswer` (the `correctAnswer` and
`explanation` echo fields are inert and omitted). -/
structure CheckResult where
  isValid : Bool
  isCorrect : Bool
  points : Nat
deriving DecidableEq

/-- `QuestionService.checkAnswer(questionId, answerId, language)`
(`src/services/QuestionService.js` lines 83-101), with the pool already
resolved for the match language: looks the question up in the pool,
fails with `isValid:false` if absent, otherwise compares the chosen
option with the stored correct option and awards the flat
`basePoints = 100` if correct, else 0. -/
def checkAnswer (pool : List Question) (questionId answerId : String) : CheckResult :=
  match pool.find? (fun q => q.id == questionId) with
  | none => { isValid := false, isCorrect := false, points := 0 }
  | some q =>
    { isValid := true
      isCorrect := q.correctAnswer == answerId
      points := if q.correctAnswer == answerId then 100 else 0 }

/-- A difficulty setting as found in the question metadata. -/
structure Difficulty where
  id : String
  timeLimit : Nat
deriving DecidableEq

/-- Modelled from the spec: the difficulty table of
`question-metadata.json` is not part of the sources; the spec fixes the
per-difficulty round deadline at 15-60 seconds with medium = 30 s, and
the client (`client/src/components/Lobby.jsx`) displays easy = 60 s,
medium = 30 s, hard = 15 s per question. -/
def difficulties : List Difficulty :=
  [⟨"easy", 60⟩, ⟨"medium", 30⟩, ⟨"hard", 15⟩]

/-- `QuestionService.getTimeLimit(difficulty)`: the configured
per-difficulty limit in seconds, defaulting to 30 for unrecognized
values (`src/services/QuestionService.js` lines 77-80). -/
def getTimeLimit (difficulty : String) : Nat :=
  match difficulties.find? (fun d => d.id == difficulty) with
  | some d => d.timeLimit
  | none => 30

/-- Stable insertion of `x` into a list kept sorted by `score`
descending: `x` lands after every earlier element of equal or larger
score, exactly the result of JS stable `sort((a, b) => b.score - a.score)`. -/
def insertByScoreDesc (score : α → Nat) (x : α) : List α → List α
  | [] => [x]
  | y :: ys =>
    if score x ≤ score y then y :: insertByScoreDesc score x ys
    else x :: y :: ys

/-- Stable sort by `score` descending (JS `Array.prototype.sort` with
comparator `(a, b) => b.score - a.score` is stable per ES2019, and a
stable sort under a total preorder has a unique result). -/
def sortByScoreDesc (score : α → Nat) (l : List α) : List α :=
  l.foldl (fun acc x => insertByScoreDesc score x acc) []

/-- `allAnswered` as computed in the submit_answer handler and
handleBotAnswer: every currently-active player has an answer record for
the submitted question id. -/
def allAnswered (g : Game) (questionId : String) : Bool :=
  (g.players.filter (fun p => p.isActive)).all
    (fun p => p.answers.any (fun a => a.questionId == questionId))

/-- The `round_scores` payload built by `sendRoundScores`
(`src/handlers/gameHandlers.js` lines 366-384) for the current question
`q`: one entry per active player, sorted by cumulative score
descending. -/
def roundScoresPayload (g : Game) (q : Question) : List ScoreEntry :=
  sortByScoreDesc (fun e => e.score)
    ((g.players.filter (fun p => p.isActive)).map (fun p =>
      let a := p.answers.find? (fun a => a.questionId == q.id)
      { playerId := p.id
        username := p.username
        score := p.score
        isCorrect := match a with | some a => a.isCorrect | none => false
        responseTime := a.map (fun a => a.responseTime) }))

/-- `sendRoundScores(io, matchId, game)`: reads
`game.questions[game.currentQuestionIndex]` and broadcasts the payload.
If the index is out of bounds the JS code would throw on
`currentQuestion.id` (a latent crash); the model makes that case a
no-op, and no property below depends on it. -/
def sendRoundScoresW (w : World) : World :=
  match w.game.questions[w.game.currentQuestionIndex]? with
  | some q => { w with log := w.log ++ [.roundScores (roundScoresPayload w.game q)] }
  | none => w

/-- The per-player record of the `finalScores` array in `endGame`
(before rank assignment). -/
def mkFinalEntry (p : Player) : FinalEntry :=
  { id := p.id
    username := p.username
    score := p.score
    correctAnswers := (p.answers.filter (fun a => a.isCorrect)).length
    totalAnswers := p.answers.length
    isBot := p.isBot
    rank := 0 }

/-- `endGame(io, matchId, game)` (`src/handlers/gameHandlers.js` lines
398-427): sets status to completed, builds `finalScores` from the
players that pass the `p.isActive` filter, sorts by score descending
(stable), writes rank = position + 1 onto each entry, takes
`finalScores[0]` as winner and broadcasts `game_end`.  Database
persistence and the matchmaking cleanup timer are external effects and
are not modelled.  (When no player is active, `finalScores[0]` is
`undefined` and the subsequent `winner.username` log line would throw;
the model returns `none` for the winner.) -/
def endGameW (w : World) : World :=
  let g := { w.game with status := Status.completed }
  let finalScores :=
    sortByScoreDesc (fun e => e.score)
      ((g.players.filter (fun p => p.isActive)).map mkFinalEntry)
  let ranked := finalScores.mapIdx (fun i e => { e with rank := i + 1 })
  { w with game := g, log := w.log ++ [.gameEnd ranked ranked.head?] }

/-- `sendQuestion(io, matchId, game)` (lines 317-363): ends the game if
the index is past the question list, otherwise records the round start
time, emits the question and schedules the auto-advance timeout.  The
timeout delay is the constant `QUESTION_TIME_LIMIT` (line 362), not the
per-match `game.questionTimeLimit`.  Bot answer simulation
(`botService.simulateBotAnswer`) schedules `handleBotAnswer` calls at
randomized delays; those deliveries are modelled as external
`Act.botAnswer` events, a superset of the randomized behaviour. -/
def sendQuestionW (w : World) (now : Nat) : World :=
  match w.game.questions[w.game.currentQuestionIndex]? with
  | none => endGameW w
  | some q =>
    let g := { w.game with questionStartTime := now }
    { w with
      game := g
      log := w.log ++ [.questionSent (g.currentQuestionIndex + 1) g.questions.length]
      timers := w.timers ++ [.deadline q.id (now + QUESTION_TIME_LIMIT)] }

/-- `nextQuestion(io, matchId, game)` (lines 387-395): unconditionally
increments the index, then ends the game or sends the next question. -/
def nextQuestionW (w : World) (now : Nat) : World :=
  let g := { w.game with currentQuestionIndex := w.game.currentQuestionIndex + 1 }
  let w1 := { w with game := g }
  if g.currentQuestionIndex ≥ g.questions.length then endGameW w1
  else sendQuestionW w1 now

/-- `startGame(io, matchId, game)` (lines 292-314): sets status to
in_progress, announces `game_start` with the per-match time limit
(falling back to the constant when the field is unset/falsy), and
schedules the first `sendQuestion` 1000 ms later. -/
def startGameW (w : World) (now : Nat) : World :=
  let g := { w.game with status := Status.in_progress }
  let timeLimit := if g.questionTimeLimit == 0 then QUESTION_TIME_LIMIT else g.questionTimeLimit
  { w with
    game := g
    log := w.log ++ [.gameStart g.questions.length (timeLimit / 1000)]
    timers := w.timers ++ [.firstQuestion (now + 1000)] }

/-- The submit_answer socket handler (`src/handlers/gameHandlers.js`
lines 96-164).  Mirrored checks, in order: the socket must belong to a
game (`getGameBySocket`), the player must exist and be active (silent
return otherwise), no answer may already exist for the submitted
question id, and `checkAnswer` must find the question in the language
pool.  On acceptance the answer is recorded, the points are added to
the cumulative score, an `answer_result` is unicast, and if every
active player now has a record for the submitted question id the round
scores are broadcast and `nextQuestion` is scheduled after
`NEXT_QUESTION_DELAY`.  Note: the handler checks neither
`game.status` nor whether the submitted question id is the match's
current question. -/
def submitAnswer (w : World) (s questionId answerId : String) (now : Nat) : World :=
  match findPlayer w.game.players s with
  | none => { w with log := w.log ++ [.errorMsg s "Not in an active game"] }
  | some p =>
    if !p.isActive then w
    else if p.answers.any (fun a => a.questionId == questionId) then
      { w with log := w.log ++ [.errorMsg s "Answer already submitted"] }
    else
      let r := checkAnswer w.pool questionId answerId
      if !r.isValid then
        { w with log := w.log ++ [.errorMsg s "Question not found"] }
      else
        let ans : Answer :=
          { questionId := questionId
            answerId := answerId
            isCorrect := r.isCorrect
            points := r.points
            timestamp := now
            responseTime := now - w.game.questionStartTime }
        let players := updatePlayer w.game.players s
          (fun p => { p with answers := p.answers ++ [ans], score := p.score + r.points })
        let g := { w.game with players := players }
        let w1 := { w with
          game := g
          log := w.log ++ [.answerResult s r.isCorrect r.points] }
        if allAnswered g questionId then
          let w2 := sendRoundScoresW w1
          { w2 with timers := w2.timers ++ [.advance (now + NEXT_QUESTION_DELAY)] }
        else w1

/-- `handleBotAnswer(io, matchId, game, bot, questionId, answerId)`
(lines 190-238): the same recording path as submit_answer but with
silent returns instead of error emissions and no `answer_result`
unicast. -/
def handleBotAnswer (w : World) (s questionId answerId : String) (now : Nat) : World :=
  match findPlayer w.game.players s with
  | none => w
  | some p =>
    if !p.isActive then w
    else if p.answers.any (fun a => a.questionId == questionId) then w
    else
      let r := checkAnswer w.pool questionId answerId
      if !r.isValid then w
      else
        let ans : Answer :=
          { questionId := questionId
            answerId := answerId
            isCorrect := r.isCorrect
            points := r.points
            timestamp := now
            responseTime := now - w.game.questionStartTime }
        let players := updatePlayer w.game.players s
          (fun p => { p with answers := p.answers ++ [ans], score := p.score + r.points })
        let g := { w.game with players := players }
        let w1 := { w with game := g }
        if allAnswered g questionId then
          let w2 := sendRoundScoresW w1
          { w2 with timers := w2.timers ++ [.advance (now + NEXT_QUESTION_DELAY)] }
        else w1

/-- The disconnect handler (lines 166-186) together with
`MatchmakingService.handlePlayerDisconnect` (which marks the player
inactive): emits `player_left`, and if no active human player remains
while the game is in progress, ends the game.  It performs no
re-evaluation of the all-answered condition. -/
def onDisconnect (w : World) (s : String) : World :=
  match findPlayer w.game.players s with
  | none => w
  | some p =>
    let players := updatePlayer w.game.players s (fun p => { p with isActive := false })
    let g := { w.game with players := players }
    let w1 := { w with game := g, log := w.log ++ [.playerLeft p.id p.username] }
    if !(g.players.any (fun p => p.isActive && !p.isBot)) && g.status == Status.in_progress then
      endGameW w1
    else w1

/-- Firing one pending `setTimeout` callback.  The deadline callback
(lines 349-362) re-reads the current question and acts only when its id
still equals the id captured at scheduling time; `advance` runs
`nextQuestion`; `firstQuestion` runs `sendQuestion`. -/
def fireTimer (w : World) : Timer → World
  | .deadline qid t =>
    match w.game.questions[w.game.currentQuestionIndex]? with
    | some q =>
      if q.id == qid then
        let w1 := sendRoundScoresW w
        { w1 with timers := w1.timers ++ [.advance (t + NEXT_QUESTION_DELAY)] }
      else w
    | none => w
  | .advance t => nextQuestionW w t
  | .firstQuestion t => sendQuestionW w t

/-- An externally triggered handler invocation: a real player's
submit_answer, a scheduled bot answer delivery, or a disconnect. -/
inductive Act where
  | submit (sockId questionId answerId : String)
  | botAnswer (sockId questionId answerId : String)
  | disconnect (sockId : String)
deriving DecidableEq

/-- An external event with its arrival time. -/
structure TimedAct where
  t : Nat
  act : Act
deriving DecidableEq

def applyAct (w : World) (now : Nat) : Act → World
  | .submit s q a => submitAnswer w s q a now
  | .botAnswer s q a => handleBotAnswer w s q a now
  | .disconnect s => onDisconnect w s

/-- Least fire time among pending timers. -/
def minFire : List Timer → Option Nat
  | [] => none
  | tm :: ts =>
    match minFire ts with
    | none => some tm.fireAt
    | some m => some (min tm.fireAt m)

/-- Remove the first timer scheduled at time `m` (FIFO among equal fire
times, as in the Node timer queue). -/
def extractFirstAt : List Timer → Nat → Option (Timer × List Timer)
  | [], _ => none
  | tm :: ts, m =>
    if tm.fireAt == m then some (tm, ts)
    else
      match extractFirstAt ts m with
      | some (x, rest) => some (x, tm :: rest)
      | none => none

/-- The next timer due at or before `bound`, with the remaining queue. -/
def pickDue (timers : List Timer) (bound : Nat) : Option (Timer × List Timer) :=
  match minFire timers with
  | none => none
  | some m =>
    if m ≤ bound then extractFirstAt timers m
    else none

/-- Fire every pending timer due at or before `bound`, in time order
(callbacks may schedule further timers).  Fuel bounds the number of
callbacks run; every scenario below is evaluated with ample fuel. -/
def fireDue : Nat → World → Nat → World
  | 0, w, _ => w
  | fuel + 1, w, bound =>
    match pickDue w.timers bound with
    | none => w
    | some (tm, rest) => fireDue fuel (fireTimer { w with timers := rest } tm) bound

/-- Run a script of external events in order, firing all timers due
before each event first (the Node event loop: timers and socket events
interleave by time). -/
def runScript (fuel : Nat) : World → List TimedAct → World
  | w, [] => w
  | w, ta :: rest => runScript fuel (applyAct (fireDue fuel w ta.t) ta.t ta.act) rest

/-- Run a script, then let the clock run to `endTime`, firing every
remaining timer due by then. -/
def runFull (fuel : Nat) (w : World) (s : List TimedAct) (endTime : Nat) : World :=
  fireDue fuel (runScript fuel w s) endTime

/-- A waiting player as pushed by `MatchmakingService.addToQueue`
(services/MatchmakingService.js lines 25-56); the join timestamp and
bot-spawn timer handle are external effects and omitted. -/
structure QueueEntry where
  id : String
  socketId : String
  username : String
  language : String
  difficulty : String
deriving DecidableEq

/-- `waitingPlayersByPreference`: buckets keyed by preference string, in
creation order. -/
abbrev Queues := List (String × List QueueEntry)

/-- `MatchmakingService.getPreferenceKey(language, difficulty)`. -/
def getPreferenceKey (language difficulty : String) : String :=
  language ++ ":" ++ difficulty

def getBucket (qs : Queues) (key : String) : List QueueEntry :=
  match qs.find? (fun b => b.1 == key) with
  | some b => b.2
  | none => []

/-- Get-or-create followed by in-place push: replace the bucket if the
key exists, otherwise append a fresh bucket. -/
def setBucket : Queues → String → List QueueEntry → Queues
  | [], key, l => [(key, l)]
  | b :: bs, key, l =>
    if b.1 == key then (key, l) :: bs
    else b :: setBucket bs key l

/-- `MatchmakingService.addToQueue(socket, username, playerId,
preferences)`: builds the entry, pushes it onto the bucket for
`getPreferenceKey(language, difficulty)` (creating the bucket if
needed), and returns `(queues, position, queueSize)` where both numbers
are the bucket length after the push.  No validation of the preference
values is performed anywhere on this path. -/
def addToQueue (qs : Queues) (sockId username playerId language difficulty : String) :
    Queues × Nat × Nat :=
  let prefKey := getPreferenceKey language difficulty
  let queue := getBucket qs prefKey ++
    [{ id := playerId, socketId := sockId, username := username,
       language := language, difficulty := difficulty }]
  (setBucket qs prefKey queue, queue.length, queue.length)

/-- The defaulting applied by the join_queue handler
(`src/handlers/gameHandlers.js` lines 23-27) before calling
`addToQueue`: absent preference fields fall back to
javascript / medium. -/
def joinQueueDefaults (language difficulty : Option String) : String × String :=
  (language.getD "javascript", difficulty.getD "medium")

/-- Modelled from the spec: the set of recognized categories/languages.
The question metadata file listing enabled languages is not part of the
sources; the spec names javascript (the default/fallback category) and
python (section 8 scenario).  Only non-membership of made-up values is
used below. -/
def recognizedLanguages : List String := ["javascript", "python"]

/-- Modelled from the spec: the recognized difficulty levels (easy,
medium, hard — also documented in the database migration comment and
the client). -/
def recognizedDifficulties : List String := ["easy", "medium", "hard"]

/-- A fresh human participant as built by
`MatchmakingService.createMatch` from a queue entry. -/
def mkPlayer (id sockId username : String) : Player :=
  { id := id, socketId := sockId, username := username,
    score := 0, answers := [], isActive := true, isBot := false }

/-- The game state built by `MatchmakingService.createMatch`
(services/MatchmakingService.js lines 144-162): index 0, status
waiting, empty question list, time limit still unset. -/
def createMatchGame (players : List Player) (language difficulty : String) : Game :=
  { players := players
    language := language
    difficulty := difficulty
    currentQuestionIndex := 0
    status := Status.waiting
    questions := []
    questionStartTime := 0
    questionTimeLimit := 0 }

/-- The follow-up assignments in `tryStartMatchForPreference`
(`src/handlers/gameHandlers.js` lines 254-259): store the selected
questions and `questionTimeLimit = getTimeLimit(difficulty) * 1000`. -/
def setupMatch (g : Game) (questions : List Question) : Game :=
  { g with
    questions := questions
    questionTimeLimit := getTimeLimit g.difficulty * 1000 }

-- The two state invariants of the spec: scores are exactly 100 per
-- correct answer record, and answer records are unique per question id
-- within each player.

/-- Every player's cumulative score equals 100 times the number of
their correct answer records. -/
def ScoresOK (g : Game) : Prop :=
  ∀ p ∈ g.players, p.score = 100 * (p.answers.filter (fun a => a.isCorrect)).length

/-- No player holds two answer records for the same question id. -/
def AnswersNodup (g : Game) : Prop :=
  ∀ p ∈ g.players, (p.answers.map (fun a => a.questionId)).Nodup

/-- Positionwise relation between two player rosters: same sockets in
the same order, and every answer list of the second extends the
corresponding answer list of the first (records are only appended,
never removed or modified). -/
def AnswersExtend (ps qs : List Player) : Prop :=
  List.Forall₂ (fun p q => q.socketId = p.socketId ∧ ∃ t, q.answers = p.answers ++ t) ps qs

instance (g : Game) : Decidable (ScoresOK g) := by
  unfold ScoresOK
  infer_instance

instance (g : Game) : Decidable (AnswersNodup g) := by
  unfold AnswersNodup
  infer_instance

/-- Number of `round_scores` broadcasts in an emission log. -/
def countRoundScores (l : List Emit) : Nat :=
  l.countP (fun e => match e with | .roundScores _ => true | _ => false)

/-- Number of `game_end` broadcasts in an emission log. -/
def countGameEnd (l : List Emit) : Nat :=
  l.countP (fun e => match e with | .gameEnd _ _ => true | _ => false)

/-- The answer list of the player seated at socket `s` (empty if the
socket is not seated). -/
def answersOf (g : Game) (s : String) : List Answer :=
  match findPlayer g.players s with
  | some p => p.answers
  | none => []

-- Concrete match fixtures used to evaluate the model on the scenarios
-- of the specification.

/-- A two-player one-question match (a question pool can hold fewer
questions than `QUESTIONS_PER_GAME`; `getQuestionsForMatch` takes
`min(count, available)`), formed at javascript/medium. -/
def raceWorld : World :=
  { game := setupMatch
      (createMatchGame [mkPlayer "A" "sA" "alice", mkPlayer "B" "sB" "bob"]
        "javascript" "medium")
      [⟨"q0", "a"⟩]
    pool := [⟨"q0", "a"⟩]
    timers := []
    log := [] }

/-- `raceWorld` after `startGame` ran at time 0 and the first question
went out at time 1000: the deadline timer for q0 is pending at
31000 ms. -/
def raceStarted : World := runFull 10 (startGameW raceWorld 0) [] 1000

/-- Both players answer the only question shortly before its deadline
(at 29.0 s and 29.5 s, deadline 31.0 s), so the round resolves early by
all-answered. -/
def raceScript : List TimedAct :=
  [⟨29000, Act.submit "sA" "q0" "a"⟩, ⟨29500, Act.submit "sB" "q0" "b"⟩]

/-- The full run of the race scenario, letting every pending timer fire
(clock run to 40 s). -/
def raceFinal : World := runFull 10 raceStarted raceScript 40000

/-- A two-player two-question match formed at javascript/medium, first
question (q0) sent at time 1000. -/
def c1World : World :=
  runFull 10
    (startGameW
      { game := setupMatch
          (createMatchGame [mkPlayer "A" "sA" "alice", mkPlayer "B" "sB" "bob"]
            "javascript" "medium")
          [⟨"q0", "a"⟩, ⟨"q1", "b"⟩]
        pool := [⟨"q0", "a"⟩, ⟨"q1", "b"⟩]
        timers := []
        log := [] } 0)
    [] 1000

/-- Alice submits an answer for q1 while the current question is q0. -/
def c1After : World := submitAnswer c1World "sA" "q1" "b" 5000

/-- A completed-run state in which bob (score 300, every answer
correct) disconnected before the end while alice (score 100) stayed:
the state on which `endGame` computes the final standings. -/
def c3World : World :=
  { game :=
    { players :=
        [{ mkPlayer "A" "sA" "alice" with
            score := 100
            answers := [⟨"q0", "a", true, 100, 5000, 4000⟩] },
         { mkPlayer "B" "sB" "bob" with
            score := 300
            isActive := false
            answers := [⟨"q0", "a", true, 100, 5000, 4200⟩,
                        ⟨"q1", "b", true, 100, 40000, 3500⟩,
                        ⟨"q2", "c", true, 100, 70000, 2800⟩] }]
      language := "javascript"
      difficulty := "medium"
      currentQuestionIndex := 3
      status := Status.in_progress
      questions := [⟨"q0", "a"⟩, ⟨"q1", "b"⟩, ⟨"q2", "c"⟩]
      questionStartTime := 70000
      questionTimeLimit := 30000 }
    pool := [⟨"q0", "a"⟩, ⟨"q1", "b"⟩, ⟨"q2", "c"⟩]
    timers := []
    log := [] }

/-- Mid-round state of a one-question match: alice already answered q0,
bob has not, the q0 deadline is pending at 31 s. -/
def c4World : World :=
  { game :=
    { players :=
        [{ mkPlayer "A" "sA" "alice" with
            score := 100
            answers := [⟨"q0", "a", true, 100, 3000, 2000⟩] },
         mkPlayer "B" "sB" "bob"]
      language := "javascript"
      difficulty := "medium"
      currentQuestionIndex := 0
      status := Status.in_progress
      questions := [⟨"q0", "a"⟩]
      questionStartTime := 1000
      questionTimeLimit := 30000 }
    pool := [⟨"q0", "a"⟩]
    timers := [Timer.deadline "q0" 31000]
    log := [] }

/-- Bob, the only player without an answer record for the current
question, disconnects. -/
def c4After : World := onDisconnect c4World "sB"

/-- A one-question match formed at difficulty easy. -/
def c5Game : Game :=
  setupMatch
    (createMatchGame [mkPlayer "A" "sA" "alice", mkPlayer "B" "sB" "bob"]
      "javascript" "easy")
    [⟨"q0", "a"⟩]

def c5World : World :=
  { game := c5Game, pool := [⟨"q0", "a"⟩], timers := [], log := [] }

/-- The easy match after `startGame` at time 0 and the first question
at time 1000. -/
def c5Started : World := runFull 10 (startGameW c5World 0) [] 1000

-- Basic facts about the operations: which state components each one
-- leaves untouched.

@[simp] theorem endGameW_game_players (w : World) :
    (endGameW w).game.players = w.game.players := rfl

@[simp] theorem endGameW_game_idx (w : World) :
    (endGameW w).game.currentQuestionIndex = w.game.currentQuestionIndex := rfl

@[simp] theorem endGameW_timers (w : World) : (endGameW w).timers = w.timers := rfl

@[simp] theorem endGameW_pool (w : World) : (endGameW w).pool = w.pool := rfl

@[simp] theorem sendRoundScoresW_game (w : World) :
    (sendRoundScoresW w).game = w.game := by
  unfold sendRoundScoresW; split <;> rfl

@[simp] theorem sendRoundScoresW_timers (w : World) :
    (sendRoundScoresW w).timers = w.timers := by
  unfold sendRoundScoresW; split <;> rfl

@[simp] theorem sendRoundScoresW_pool (w : World) :
    (sendRoundScoresW w).pool = w.pool := by
  unfold sendRoundScoresW; split <;> rfl

@[simp] theorem sendQuestionW_game_players (w : World) (t : Nat) :
    (sendQuestionW w t).game.players = w.game.players := by
  unfold sendQuestionW; split <;> rfl

@[simp] theorem sendQuestionW_game_idx (w : World) (t : Nat) :
    (sendQuestionW w t).game.currentQuestionIndex = w.game.currentQuestionIndex := by
  unfold sendQuestionW; split <;> rfl

@[simp] theorem nextQuestionW_game_players (w : World) (t : Nat) :
    (nextQuestionW w t).game.players = w.game.players := by
  simp only [nextQuestionW]
  split <;> simp

@[simp] theorem nextQuestionW_game_idx (w : World) (t : Nat) :
    (nextQuestionW w t).game.currentQuestionIndex = w.game.currentQuestionIndex + 1 := by
  simp only [nextQuestionW]
  split <;> simp

theorem fireTimer_game_players (w : World) (tm : Timer) :
    (fireTimer w tm).game.players = w.game.players := by
  cases tm with
  | deadline qid t =>
    simp only [fireTimer]
    split
    · split <;> simp
    · rfl
  | advance t => simp [fireTimer]
  | firstQuestion t => simp [fireTimer]

theorem fireTimer_idx_le (w : World) (tm : Timer) :
    w.game.currentQuestionIndex ≤ (fireTimer w tm).game.currentQuestionIndex := by
  cases tm with
  | deadline qid t =>
    simp only [fireTimer]
    split
    · split <;> simp
    · exact Nat.le_refl _
  | advance t =>
    simp only [fireTimer, nextQuestionW_game_idx]
    exact Nat.le_succ _
  | firstQuestion t => simp [fireTimer]

-- Stable descending sort: permutation facts.

theorem insertByScoreDesc_perm (score : α → Nat) (x : α) (l : List α) :
    List.Perm (insertByScoreDesc score x l) (x :: l) := by
  induction l with
  | nil => simp [insertByScoreDesc]
  | cons y ys ih =>
    unfold insertByScoreDesc
    split
    · exact (ih.cons y).trans (List.Perm.swap x y ys)
    · exact List.Perm.refl _

theorem foldl_insertByScoreDesc_perm (score : α → Nat) :
    ∀ (l acc : List α),
      List.Perm (l.foldl (fun a x => insertByScoreDesc score x a) acc) (acc ++ l) := by
  intro l
  induction l with
  | nil => intro acc; simp
  | cons x xs ih =>
    intro acc
    simp only [List.foldl_cons]
    refine (ih (insertByScoreDesc score x acc)).trans ?_
    refine ((insertByScoreDesc_perm score x acc).append_right xs).trans ?_
    exact List.perm_middle.symm

theorem sortByScoreDesc_perm (score : α → Nat) (l : List α) :
    List.Perm (sortByScoreDesc score l) l := by
  simpa using foldl_insertByScoreDesc_perm score l []

-- findPlayer / updatePlayer interaction.

theorem mem_updatePlayer_cases {l : List Player} {s : String} {f : Player → Player}
    {x : Player} (hx : x ∈ updatePlayer l s f) :
    x ∈ l ∨ ∃ p, findPlayer l s = some p ∧ x = f p := by
  induction l with
  | nil => simp [updatePlayer] at hx
  | cons p ps ih =>
    unfold updatePlayer at hx
    by_cases h : (p.socketId == s) = true
    · rw [if_pos h] at hx
      rcases List.mem_cons.mp hx with hfx | hmem
      · exact Or.inr ⟨p, by simp [findPlayer, List.find?_cons, h], hfx⟩
      · exact Or.inl (List.mem_cons_of_mem _ hmem)
    · rw [if_neg h] at hx
      rcases List.mem_cons.mp hx with hfx | hmem
      · exact Or.inl (hfx ▸ List.mem_cons_self _ _)
      · rcases ih hmem with hl | ⟨q, hq, hxq⟩
        · exact Or.inl (List.mem_cons_of_mem _ hl)
        · refine Or.inr ⟨q, ?_, hxq⟩
          simpa [findPlayer, List.find?_cons, h] using hq

theorem findPlayer_mem {l : List Player} {s : String} {p : Player}
    (h : findPlayer l s = some p) : p ∈ l :=
  List.mem_of_find?_eq_some h

theorem updatePlayer_map_of_proj {β : Type} (proj : Player → β)
    (l : List Player) (s : String) (f : Player → Player)
    (hf : ∀ p, proj (f p) = proj p) :
    (updatePlayer l s f).map proj = l.map proj := by
  induction l with
  | nil => rfl
  | cons p ps ih =>
    unfold updatePlayer
    split
    · simp [hf]
    · simp [ih]

-- Case analysis of the submit_answer handler: either the game state is
-- left untouched (a rejection path), or the submission passed every
-- check the code performs and exactly one answer record was appended.

theorem submitAnswer_players_cases (w : World) (s qid aid : String) (now : Nat) :
    (submitAnswer w s qid aid now).game.players = w.game.players ∨
    ∃ p, findPlayer w.game.players s = some p ∧ p.isActive = true ∧
      p.answers.any (fun a => a.questionId == qid) = false ∧
      (checkAnswer w.pool qid aid).isValid = true ∧
      (submitAnswer w s qid aid now).game.players =
        updatePlayer w.game.players s
          (fun p => { p with
            answers := p.answers ++
              [{ questionId := qid, answerId := aid,
                 isCorrect := (checkAnswer w.pool qid aid).isCorrect,
                 points := (checkAnswer w.pool qid aid).points,
                 timestamp := now,
                 responseTime := now - w.game.questionStartTime }],
            score := p.score + (checkAnswer w.pool qid aid).points }) := by
  unfold submitAnswer
  cases hfind : findPlayer w.game.players s with
  | none => exact Or.inl rfl
  | some p =>
    by_cases hact : p.isActive
    · by_cases hdup : p.answers.any (fun a => a.questionId == qid)
      · simp [hact, hdup]
      · by_cases hval : (checkAnswer w.pool qid aid).isValid
        · refine Or.inr ⟨p, rfl, hact, by simpa using hdup, hval, ?_⟩
          simp only [hact, hdup, hval]
          simp only [Bool.not_true, Bool.false_eq_true, if_false, Bool.not_false,
            Bool.true_eq_false]
          split <;> simp
        · simp [hact, hdup, hval]
    · simp [hact]

theorem handleBotAnswer_players_cases (w : World) (s qid aid : String) (now : Nat) :
    (handleBotAnswer w s qid aid now).game.players = w.game.players ∨
    ∃ p, findPlayer w.game.players s = some p ∧ p.isActive = true ∧
      p.answers.any (fun a => a.questionId == qid) = false ∧
      (checkAnswer w.pool qid aid).isValid = true ∧
      (handleBotAnswer w s qid aid now).game.players =
        updatePlayer w.game.players s
          (fun p => { p with
            answers := p.answers ++
              [{ questionId := qid, answerId := aid,
                 isCorrect := (checkAnswer w.pool qid aid).isCorrect,
                 points := (checkAnswer w.pool qid aid).points,
                 timestamp := now,
                 responseTime := now - w.game.questionStartTime }],
            score := p.score + (checkAnswer w.pool qid aid).points }) := by
  unfold handleBotAnswer
  cases hfind : findPlayer w.game.players s with
  | none => exact Or.inl rfl
  | some p =>
    by_cases hact : p.isActive
    · by_cases hdup : p.answers.any (fun a => a.questionId == qid)
      · simp [hact, hdup]
      · by_cases hval : (checkAnswer w.pool qid aid).isValid
        · refine Or.inr ⟨p, rfl, hact, by simpa using hdup, hval, ?_⟩
          simp only [hact, hdup, hval]
          simp only [Bool.not_true, Bool.false_eq_true, if_false, Bool.not_false,
            Bool.true_eq_false]
          split <;> simp
        · simp [hact, hdup, hval]
    · simp [hact]

theorem submitAnswer_accepted (w : World) (s qid aid : String) (now : Nat) (p : Player)
    (hp : findPlayer w.game.players s = some p)
    (hact : p.isActive = true)
    (hdup : p.answers.any (fun a => a.questionId == qid) = false)
    (hval : (checkAnswer w.pool qid aid).isValid = true) :
    (submitAnswer w s qid aid now).game.players =
      updatePlayer w.game.players s
        (fun p => { p with
          answers := p.answers ++
            [{ questionId := qid, answerId := aid,
               isCorrect := (checkAnswer w.pool qid aid).isCorrect,
               points := (checkAnswer w.pool qid aid).points,
               timestamp := now,
               responseTime := now - w.game.questionStartTime }],
          score := p.score + (checkAnswer w.pool qid aid).points }) := by
  unfold submitAnswer
  rw [hp]
  simp only [hact, hdup, hval, Bool.not_true, Bool.false_eq_true, if_false, Bool.not_false,
    Bool.true_eq_false]
  split <;> simp

theorem onDisconnect_players_cases (w : World) (s : String) :
    (onDisconnect w s).game.players = w.game.players ∨
    (onDisconnect w s).game.players =
      updatePlayer w.game.players s (fun p => { p with isActive := false }) := by
  unfold onDisconnect
  split
  · exact Or.inl rfl
  · right
    dsimp only
    split <;> simp

-- A duplicate submission is an early return: the whole world except the
-- error emission is untouched.

theorem submitAnswer_duplicate (w : World) (s qid aid : String) (now : Nat) (p : Player)
    (hfind : findPlayer w.game.players s = some p)
    (hact : p.isActive = true)
    (hdup : p.answers.any (fun a => a.questionId == qid) = true) :
    submitAnswer w s qid aid now =
      { w with log := w.log ++ [.errorMsg s "Answer already submitted"] } := by
  unfold submitAnswer
  rw [hfind]
  simp [hact, hdup]

theorem handleBotAnswer_duplicate (w : World) (s qid aid : String) (now : Nat) (p : Player)
    (hfind : findPlayer w.game.players s = some p)
    (hact : p.isActive = true)
    (hdup : p.answers.any (fun a => a.questionId == qid) = true) :
    handleBotAnswer w s qid aid now = w := by
  unfold handleBotAnswer
  rw [hfind]
  simp [hact, hdup]

-- The three external handlers never move the question index.

theorem submitAnswer_game_idx (w : World) (s qid aid : String) (now : Nat) :
    (submitAnswer w s qid aid now).game.currentQuestionIndex =
      w.game.currentQuestionIndex := by
  unfold submitAnswer
  cases hfind : findPlayer w.game.players s with
  | none => rfl
  | some p =>
    by_cases hact : p.isActive
    · by_cases hdup : p.answers.any (fun a => a.questionId == qid)
      · simp [hact, hdup]
      · by_cases hval : (checkAnswer w.pool qid aid).isValid
        · simp only [hact, hdup, hval]
          simp only [Bool.not_true, Bool.false_eq_true, if_false, Bool.not_false,
            Bool.true_eq_false]
          split <;> simp
        · simp [hact, hdup, hval]
    · simp [hact]

theorem handleBotAnswer_game_idx (w : World) (s qid aid : String) (now : Nat) :
    (handleBotAnswer w s qid aid now).game.currentQuestionIndex =
      w.game.currentQuestionIndex := by
  unfold handleBotAnswer
  cases hfind : findPlayer w.game.players s with
  | none => rfl
  | some p =>
    by_cases hact : p.isActive
    · by_cases hdup : p.answers.any (fun a => a.questionId == qid)
      · simp [hact, hdup]
      · by_cases hval : (checkAnswer w.pool qid aid).isValid
        · simp only [hact, hdup, hval]
          simp only [Bool.not_true, Bool.false_eq_true, if_false, Bool.not_false,
            Bool.true_eq_false]
          split <;> simp
        · simp [hact, hdup, hval]
    · simp [hact]

theorem onDisconnect_game_idx (w : World) (s : String) :
    (onDisconnect w s).game.currentQuestionIndex = w.game.currentQuestionIndex := by
  unfold onDisconnect
  split
  · rfl
  · dsimp only
    split <;> simp

theorem applyAct_game_idx (w : World) (now : Nat) (a : Act) :
    (applyAct w now a).game.currentQuestionIndex = w.game.currentQuestionIndex := by
  cases a with
  | submit s q x => exact submitAnswer_game_idx w s q x now
  | botAnswer s q x => exact handleBotAnswer_game_idx w s q x now
  | disconnect s => exact onDisconnect_game_idx w s

theorem checkAnswer_points (pool : List Question) (qid aid : String) :
    (checkAnswer pool qid aid).points =
      if (checkAnswer pool qid aid).isCorrect then 100 else 0 := by
  unfold checkAnswer
  split <;> simp

theorem answersExtend_refl (l : List Player) : AnswersExtend l l := by
  induction l with
  | nil => exact List.Forall₂.nil
  | cons p ps ih => exact List.Forall₂.cons ⟨rfl, ⟨[], by simp⟩⟩ ih

theorem answersExtend_trans {l1 l2 l3 : List Player}
    (h12 : AnswersExtend l1 l2) (h23 : AnswersExtend l2 l3) : AnswersExtend l1 l3 := by
  induction h12 generalizing l3 with
  | nil => cases h23; exact List.Forall₂.nil
  | cons hpq hrest ih =>
    cases h23 with
    | cons hqr hrest2 =>
      refine List.Forall₂.cons ⟨hqr.1.trans hpq.1, ?_⟩ (ih hrest2)
      rcases hpq.2 with ⟨t1, ht1⟩
      rcases hqr.2 with ⟨t2, ht2⟩
      exact ⟨t1 ++ t2, by rw [ht2, ht1, List.append_assoc]⟩

theorem answersExtend_updatePlayer (l : List Player) (s : String) (f : Player → Player)
    (hf : ∀ p, (f p).socketId = p.socketId ∧ ∃ t, (f p).answers = p.answers ++ t) :
    AnswersExtend l (updatePlayer l s f) := by
  induction l with
  | nil => exact List.Forall₂.nil
  | cons p ps ih =>
    unfold updatePlayer
    split
    · exact List.Forall₂.cons (hf p) (answersExtend_refl ps)
    · exact List.Forall₂.cons ⟨rfl, ⟨[], by simp⟩⟩ ih

-- Preservation of ScoresOK by each operation.

theorem scoresOK_record (l : List Player) (s : String) (pool : List Question)
    (qid aid : String) (now tstart : Nat)
    (h : ∀ p ∈ l, p.score = 100 * (p.answers.filter (fun a => a.isCorrect)).length) :
    ∀ x ∈ updatePlayer l s (fun p => { p with
        answers := p.answers ++
          [{ questionId := qid, answerId := aid,
             isCorrect := (checkAnswer pool qid aid).isCorrect,
             points := (checkAnswer pool qid aid).points,
             timestamp := now, responseTime := tstart }],
        score := p.score + (checkAnswer pool qid aid).points }),
      x.score = 100 * (x.answers.filter (fun a => a.isCorrect)).length := by
  intro x hx
  rcases mem_updatePlayer_cases hx with hmem | ⟨q, hq, rfl⟩
  · exact h x hmem
  · have hs := h q (findPlayer_mem hq)
    dsimp only
    rw [List.filter_append, List.length_append, checkAnswer_points]
    by_cases hc : (checkAnswer pool qid aid).isCorrect = true <;> simp [hc] <;> omega

theorem scoresOK_submitAnswer (w : World) (s qid aid : String) (now : Nat)
    (h : ScoresOK w.game) : ScoresOK (submitAnswer w s qid aid now).game := by
  rcases submitAnswer_players_cases w s qid aid now with hsame | ⟨p, hp, _, _, _, heq⟩
  · intro x hx; rw [hsame] at hx; exact h x hx
  · intro x hx
    rw [heq] at hx
    exact scoresOK_record w.game.players s w.pool qid aid now _ h x hx

theorem scoresOK_handleBotAnswer (w : World) (s qid aid : String) (now : Nat)
    (h : ScoresOK w.game) : ScoresOK (handleBotAnswer w s qid aid now).game := by
  rcases handleBotAnswer_players_cases w s qid aid now with hsame | ⟨p, hp, _, _, _, heq⟩
  · intro x hx; rw [hsame] at hx; exact h x hx
  · intro x hx
    rw [heq] at hx
    exact scoresOK_record w.game.players s w.pool qid aid now _ h x hx

theorem scoresOK_onDisconnect (w : World) (s : String)
    (h : ScoresOK w.game) : ScoresOK (onDisconnect w s).game := by
  rcases onDisconnect_players_cases w s with hsame | heq
  · intro x hx; rw [hsame] at hx; exact h x hx
  · intro x hx
    rw [heq] at hx
    rcases mem_updatePlayer_cases hx with hmem | ⟨q, hq, rfl⟩
    · exact h x hmem
    · exact h q (findPlayer_mem hq)

theorem scoresOK_applyAct (w : World) (now : Nat) (a : Act)
    (h : ScoresOK w.game) : ScoresOK (applyAct w now a).game := by
  cases a with
  | submit s q x => exact scoresOK_submitAnswer w s q x now h
  | botAnswer s q x => exact scoresOK_handleBotAnswer w s q x now h
  | disconnect s => exact scoresOK_onDisconnect w s h

theorem scoresOK_fireTimer (w : World) (tm : Timer)
    (h : ScoresOK w.game) : ScoresOK (fireTimer w tm).game := by
  intro x hx
  rw [fireTimer_game_players] at hx
  exact h x hx

-- Preservation of AnswersNodup by each operation.

theorem answersNodup_record (l : List Player) (s : String) (p : Player)
    (pool : List Question) (qid aid : String) (now tstart : Nat)
    (hp : findPlayer l s = some p)
    (hdup : p.answers.any (fun a => a.questionId == qid) = false)
    (h : ∀ x ∈ l, (x.answers.map (fun a => a.questionId)).Nodup) :
    ∀ x ∈ updatePlayer l s (fun p => { p with
        answers := p.answers ++
          [{ questionId := qid, answerId := aid,
             isCorrect := (checkAnswer pool qid aid).isCorrect,
             points := (checkAnswer pool qid aid).points,
             timestamp := now, responseTime := tstart }],
        score := p.score + (checkAnswer pool qid aid).points }),
      (x.answers.map (fun a => a.questionId)).Nodup := by
  intro x hx
  rcases mem_updatePlayer_cases hx with hmem | ⟨q, hq, rfl⟩
  · exact h x hmem
  · have hqp : p = q := Option.some.inj (hp.symm.trans hq)
    subst hqp
    have hnd := h p (findPlayer_mem hp)
    have hni : qid ∉ p.answers.map (fun a => a.questionId) := by
      intro hmemq
      rcases List.mem_map.mp hmemq with ⟨a, ha, haq⟩
      have : p.answers.any (fun a => a.questionId == qid) = true :=
        List.any_eq_true.mpr ⟨a, ha, by simp [haq]⟩
      rw [this] at hdup
      exact Bool.true_eq_false.mp hdup
    dsimp only
    rw [List.map_append]
    simp only [List.map_cons, List.map_nil]
    rw [List.nodup_append]
    refine ⟨hnd, List.nodup_singleton _, ?_⟩
    intro a ha hb
    rcases List.mem_singleton.mp hb with rfl
    exact hni ha

theorem answersNodup_submitAnswer (w : World) (s qid aid : String) (now : Nat)
    (h : AnswersNodup w.game) : AnswersNodup (submitAnswer w s qid aid now).game := by
  rcases submitAnswer_players_cases w s qid aid now with hsame | ⟨p, hp, _, hdup, _, heq⟩
  · intro x hx; rw [hsame] at hx; exact h x hx
  · intro x hx
    rw [heq] at hx
    exact answersNodup_record w.game.players s p w.pool qid aid now _ hp hdup h x hx

theorem answersNodup_handleBotAnswer (w : World) (s qid aid : String) (now : Nat)
    (h : AnswersNodup w.game) : AnswersNodup (handleBotAnswer w s qid aid now).game := by
  rcases handleBotAnswer_players_cases w s qid aid now with hsame | ⟨p, hp, _, hdup, _, heq⟩
  · intro x hx; rw [hsame] at hx; exact h x hx
  · intro x hx
    rw [heq] at hx
    exact answersNodup_record w.game.players s p w.pool qid aid now _ hp hdup h x hx

theorem answersNodup_onDisconnect (w : World) (s : String)
    (h : AnswersNodup w.game) : AnswersNodup (onDisconnect w s).game := by
  rcases onDisconnect_players_cases w s with hsame | heq
  · intro x hx; rw [hsame] at hx; exact h x hx
  · intro x hx
    rw [heq] at hx
    rcases mem_updatePlayer_cases hx with hmem | ⟨q, hq, rfl⟩
    · exact h x hmem
    · exact h q (findPlayer_mem hq)

theorem answersNodup_applyAct (w : World) (now : Nat) (a : Act)
    (h : AnswersNodup w.game) : AnswersNodup (applyAct w now a).game := by
  cases a with
  | submit s q x => exact answersNodup_submitAnswer w s q x now h
  | botAnswer s q x => exact answersNodup_handleBotAnswer w s q x now h
  | disconnect s => exact answersNodup_onDisconnect w s h

theorem answersNodup_fireTimer (w : World) (tm : Timer)
    (h : AnswersNodup w.game) : AnswersNodup (fireTimer w tm).game := by
  intro x hx
  rw [fireTimer_game_players] at hx
  exact h x hx

-- Answer lists only ever grow.

theorem answersExtend_submitAnswer (w : World) (s qid aid : String) (now : Nat) :
    AnswersExtend w.game.players (submitAnswer w s qid aid now).game.players := by
  rcases submitAnswer_players_cases w s qid aid now with hsame | ⟨p, _, _, _, _, heq⟩
  · rw [hsame]; exact answersExtend_refl _
  · rw [heq]
    exact answersExtend_updatePlayer _ _ _ (fun q => ⟨rfl, ⟨_, rfl⟩⟩)

theorem answersExtend_handleBotAnswer (w : World) (s qid aid : String) (now : Nat) :
    AnswersExtend w.game.players (handleBotAnswer w s qid aid now).game.players := by
  rcases handleBotAnswer_players_cases w s qid aid now with hsame | ⟨p, _, _, _, _, heq⟩
  · rw [hsame]; exact answersExtend_refl _
  · rw [heq]
    exact answersExtend_updatePlayer _ _ _ (fun q => ⟨rfl, ⟨_, rfl⟩⟩)

theorem answersExtend_onDisconnect (w : World) (s : String) :
    AnswersExtend w.game.players (onDisconnect w s).game.players := by
  rcases onDisconnect_players_cases w s with hsame | heq
  · rw [hsame]; exact answersExtend_refl _
  · rw [heq]
    exact answersExtend_updatePlayer _ _ _ (fun q => ⟨rfl, ⟨[], by simp⟩⟩)

theorem answersExtend_applyAct (w : World) (now : Nat) (a : Act) :
    AnswersExtend w.game.players (applyAct w now a).game.players := by
  cases a with
  | submit s q x => exact answersExtend_submitAnswer w s q x now
  | botAnswer s q x => exact answersExtend_handleBotAnswer w s q x now
  | disconnect s => exact answersExtend_onDisconnect w s

-- Disconnect handling never touches the timer queue and only ever adds
-- player_left / game_end emissions.

theorem onDisconnect_timers (w : World) (s : String) :
    (onDisconnect w s).timers = w.timers := by
  unfold onDisconnect
  split
  · rfl
  · dsimp only
    split <;> simp

theorem onDisconnect_log (w : World) (s : String) :
    ∀ e ∈ (onDisconnect w s).log, e ∈ w.log ∨
      (∃ pid un, e = Emit.playerLeft pid un) ∨
      (∃ fs wn, e = Emit.gameEnd fs wn) := by
  unfold onDisconnect
  split
  · intro e he; exact Or.inl he
  · dsimp only
    split
    · intro e he
      simp only [endGameW, List.append_assoc, List.mem_append, List.mem_singleton] at he
      rcases he with he | he | he
      · exact Or.inl he
      · exact Or.inr (Or.inl ⟨_, _, he⟩)
      · exact Or.inr (Or.inr ⟨_, _, he⟩)
    · intro e he
      simp only [List.mem_append, List.mem_singleton] at he
      rcases he with he | he
      · exact Or.inl he
      · exact Or.inr (Or.inl ⟨_, _, he⟩)

-- Generic preservation of a game predicate through the scheduler.

theorem preserveGame_fireDue (P : Game → Prop)
    (ht : ∀ w tm, P w.game → P (fireTimer w tm).game) :
    ∀ fuel (w : World) (bound : Nat), P w.game → P (fireDue fuel w bound).game := by
  intro fuel
  induction fuel with
  | zero => intro w bound h; exact h
  | succ n ih =>
    intro w bound h
    unfold fireDue
    split
    · exact h
    · exact ih _ _ (ht _ _ h)

theorem preserveGame_runScript (P : Game → Prop)
    (ht : ∀ w tm, P w.game → P (fireTimer w tm).game)
    (ha : ∀ w now a, P w.game → P (applyAct w now a).game) :
    ∀ fuel (s : List TimedAct) (w : World), P w.game → P (runScript fuel w s).game := by
  intro fuel s
  induction s with
  | nil => intro w h; exact h
  | cons ta rest ih =>
    intro w h
    unfold runScript
    exact ih _ (ha _ _ _ (preserveGame_fireDue P ht fuel w ta.t h))

theorem preserveGame_runFull (P : Game → Prop)
    (ht : ∀ w tm, P w.game → P (fireTimer w tm).game)
    (ha : ∀ w now a, P w.game → P (applyAct w now a).game) :
    ∀ fuel (w : World) (s : List TimedAct) (endTime : Nat),
      P w.game → P (runFull fuel w s endTime).game := by
  intro fuel w s endTime h
  exact preserveGame_fireDue P ht fuel _ endTime (preserveGame_runScript P ht ha fuel s w h)

-- The question index never decreases across any run.

theorem fireDue_idx_le : ∀ fuel (w : World) (bound : Nat),
    w.game.currentQuestionIndex ≤ (fireDue fuel w bound).game.currentQuestionIndex := by
  intro fuel
  induction fuel with
  | zero => intro w bound; exact Nat.le_refl _
  | succ n ih =>
    intro w bound
    unfold fireDue
    split
    · exact Nat.le_refl _
    · next tm rest heq =>
      exact Nat.le_trans (fireTimer_idx_le { w with timers := rest } tm)
        (ih (fireTimer { w with timers := rest } tm) bound)

theorem runScript_idx_le (fuel : Nat) : ∀ (s : List TimedAct) (w : World),
    w.game.currentQuestionIndex ≤ (runScript fuel w s).game.currentQuestionIndex := by
  intro s
  induction s with
  | nil => intro w; exact Nat.le_refl _
  | cons ta rest ih =>
    intro w
    unfold runScript
    calc w.game.currentQuestionIndex
        ≤ (fireDue fuel w ta.t).game.currentQuestionIndex := fireDue_idx_le fuel w ta.t
      _ = (applyAct (fireDue fuel w ta.t) ta.t ta.act).game.currentQuestionIndex :=
          (applyAct_game_idx _ _ _).symm
      _ ≤ _ := ih _

theorem runFull_idx_le (fuel : Nat) (w : World) (s : List TimedAct) (endTime : Nat) :
    w.game.currentQuestionIndex ≤ (runFull fuel w s endTime).game.currentQuestionIndex :=
  Nat.le_trans (runScript_idx_le fuel s w) (fireDue_idx_le fuel _ endTime)

-- The three invariants lifted to whole runs.

theorem scoresOK_runFull (fuel : Nat) (w : World) (s : List TimedAct) (endTime : Nat)
    (h : ScoresOK w.game) : ScoresOK (runFull fuel w s endTime).game :=
  preserveGame_runFull ScoresOK scoresOK_fireTimer scoresOK_applyAct fuel w s endTime h

theorem answersNodup_runFull (fuel : Nat) (w : World) (s : List TimedAct) (endTime : Nat)
    (h : AnswersNodup w.game) : AnswersNodup (runFull fuel w s endTime).game :=
  preserveGame_runFull AnswersNodup answersNodup_fireTimer answersNodup_applyAct fuel w s endTime h

theorem answersExtend_runFull (fuel : Nat) (w : World) (s : List TimedAct) (endTime : Nat) :
    AnswersExtend w.game.players (runFull fuel w s endTime).game.players := by
  refine preserveGame_runFull (fun g => AnswersExtend w.game.players g.players)
    ?_ ?_ fuel w s endTime (answersExtend_refl _)
  · intro w2 tm h
    rw [fireTimer_game_players]
    exact h
  · intro w2 now a h
    exact answersExtend_trans h (answersExtend_applyAct w2 now a)

-- Further lookup lemmas used by the acceptance characterization.

theorem findPlayer_updatePlayer (l : List Player) (s : String) (f : Player → Player)
    (hf : ∀ p, (f p).socketId = p.socketId) :
    findPlayer (updatePlayer l s f) s = (findPlayer l s).map f := by
  induction l with
  | nil => rfl
  | cons p ps ih =>
    unfold updatePlayer
    by_cases h : (p.socketId == s) = true
    · rw [if_pos h]
      unfold findPlayer
      rw [List.find?_cons_of_pos _ (by simpa [hf] using h),
        List.find?_cons_of_pos _ (by simpa using h)]
      rfl
    · rw [if_neg h]
      unfold findPlayer
      rw [List.find?_cons_of_neg _ (by simpa using h),
        List.find?_cons_of_neg _ (by simpa using h)]
      exact ih

theorem checkAnswer_isValid (pool : List Question) (qid aid : String) :
    (checkAnswer pool qid aid).isValid = true ↔ ∃ q ∈ pool, q.id = qid := by
  unfold checkAnswer
  cases hf : pool.find? (fun q => q.id == qid) with
  | none =>
    constructor
    · intro h
      simp at h
    · rintro ⟨q, hq, hid⟩
      have := List.find?_eq_none.mp hf q hq
      simp [hid] at this
  | some q =>
    constructor
    · intro _
      exact ⟨q, List.mem_of_find?_eq_some hf, by simpa using List.find?_some hf⟩
    · intro _
      rfl

theorem getBucket_setBucket (qs : Queues) (key : String) (l : List QueueEntry) :
    getBucket (setBucket qs key l) key = l := by
  induction qs with
  | nil => simp [setBucket, getBucket]
  | cons b bs ih =>
    unfold setBucket
    split
    · simp [getBucket]
    · next h =>
      unfold getBucket
      rw [List.find?_cons_of_neg _ (by simpa using h)]
      exact ih

theorem onDisconnect_countRoundScores (w : World) (s : String) :
    countRoundScores (onDisconnect w s).log = countRoundScores w.log := by
  unfold onDisconnect
  split
  · rfl
  · dsimp only
    split
    · simp [endGameW, countRoundScores, List.countP_append, List.countP_cons]
    · simp [countRoundScores, List.countP_append, List.countP_cons]

-- =====================  Claim theorems  =====================

/-- C1 (counterexample): in an in-progress two-question match whose
current question is q0, a real participant's submission for q1 — a
question id that is NOT the match's current question — is accepted:
the answer is recorded, 100 points are awarded, and `answer_result` is
emitted.  This falsifies the claim that a submission is accepted only
if the submitted question id equals the match's current question. -/
theorem C1_counterexample :
    c1World.game.questions[c1World.game.currentQuestionIndex]? = some ⟨"q0", "a"⟩ ∧
    c1World.game.status = Status.in_progress ∧
    findPlayer c1After.game.players "sA" = some
      { id := "A", socketId := "sA", username := "alice", score := 100,
        answers := [⟨"q1", "b", true, 100, 5000, 4000⟩],
        isActive := true, isBot := false } ∧
    c1After.log = c1World.log ++ [Emit.answerResult "sA" true 100] := by decide

/-- C1 (amended): a submission by a real participant is accepted
(exactly one answer record appended for the submitter) if and only if
the submitter is seated in the game, is active, holds no answer record
for the submitted question id, and the submitted question id exists in
the match language's question pool.  The handler checks neither the
match status nor whether the submitted id is the current question. -/
theorem C1_submission_acceptance (w : World) (s qid aid : String) (now : Nat) :
    (answersOf (submitAnswer w s qid aid now).game s).length =
      (answersOf w.game s).length + 1 ↔
    ∃ p, findPlayer w.game.players s = some p ∧ p.isActive = true ∧
      (∀ a ∈ p.answers, a.questionId ≠ qid) ∧ ∃ q ∈ w.pool, q.id = qid := by
  constructor
  · intro h
    rcases submitAnswer_players_cases w s qid aid now with hsame | ⟨p, hp, hact, hdup, hval, _⟩
    · exfalso
      have hsame2 : answersOf (submitAnswer w s qid aid now).game s = answersOf w.game s := by
        unfold answersOf
        rw [hsame]
      rw [hsame2] at h
      omega
    · refine ⟨p, hp, hact, ?_, (checkAnswer_isValid w.pool qid aid).mp hval⟩
      intro a ha heq
      have := List.any_eq_false.mp hdup a ha
      simp [heq] at this
  · rintro ⟨p, hp, hact, hnodup, hqpool⟩
    have hdup : p.answers.any (fun a => a.questionId == qid) = false :=
      List.any_eq_false.mpr (fun a ha => by simpa using hnodup a ha)
    have hval : (checkAnswer w.pool qid aid).isValid = true :=
      (checkAnswer_isValid w.pool qid aid).mpr hqpool
    have hplayers := submitAnswer_accepted w s qid aid now p hp hact hdup hval
    have hfind2 := findPlayer_updatePlayer w.game.players s
      (fun p => { p with
        answers := p.answers ++
          [{ questionId := qid, answerId := aid,
             isCorrect := (checkAnswer w.pool qid aid).isCorrect,
             points := (checkAnswer w.pool qid aid).points,
             timestamp := now,
             responseTime := now - w.game.questionStartTime }],
        score := p.score + (checkAnswer w.pool qid aid).points })
      (fun q => rfl)
    unfold answersOf
    rw [hplayers, hfind2, hp]
    simp

/-- C2 (code-bug evidence): in a one-question match where both players
answer before the deadline (29.0 s and 29.5 s, deadline at 31.0 s), the
round resolves early, but the pending deadline callback later fires
during the 3 s inter-round pause and is observably NOT a no-op: the
run produces two `round_scores` broadcasts and two `game_end`
broadcasts, and the question index advances twice (to 2 in a
1-question match). -/
theorem C2_stale_deadline_fires_observably :
    raceStarted.game.questions.length = 1 ∧
    raceStarted.timers = [Timer.deadline "q0" 31000] ∧
    countRoundScores raceFinal.log = 2 ∧
    countGameEnd raceFinal.log = 2 ∧
    raceFinal.game.currentQuestionIndex = 2 := by decide

/-- C3 (code-bug evidence): `endGame` filters on `p.isActive` (despite
its own comment "include all players for display"), so the final
standings of a match in which bob (score 300, every answer correct)
went inactive contain only alice (score 100), who is also reported as
rank-1 winner; the inactive top scorer is absent from `game_end`. -/
theorem C3_standings_omit_inactive :
    (∃ p ∈ c3World.game.players, p.id = "B" ∧ p.isActive = false ∧ p.score = 300) ∧
    (endGameW c3World).log = [Emit.gameEnd
      [⟨"A", "alice", 100, 1, 1, false, 1⟩]
      (some ⟨"A", "alice", 100, 1, 1, false, 1⟩)] := by decide

/-- C4 (counterexample): alice has answered the current question q0 and
bob has not; bob disconnects.  After the disconnect every remaining
active participant has an answer record for q0, yet no round
resolution happens at the disconnect: no `round_scores` broadcast, no
advance scheduled (timers unchanged), index unchanged — the round waits
for the deadline timer.  This falsifies the claim that the round
resolves at such a disconnect. -/
theorem C4_counterexample :
    allAnswered c4After.game "q0" = true ∧
    c4After.game.currentQuestionIndex = c4World.game.currentQuestionIndex ∧
    c4After.timers = c4World.timers ∧
    c4After.log = [Emit.playerLeft "B" "bob"] ∧
    c4After.game.status = Status.in_progress ∧
    countRoundScores c4After.log = 0 := by decide

/-- C4 (amended): processing a disconnect never resolves a round by
itself: it leaves the question index and the timer queue unchanged and
emits no `round_scores` broadcast.  The all-answered condition is only
re-evaluated (against the then-current active set) when a later answer
submission arrives. -/
theorem C4_disconnect_does_not_resolve (w : World) (s : String) :
    (onDisconnect w s).game.currentQuestionIndex = w.game.currentQuestionIndex ∧
    (onDisconnect w s).timers = w.timers ∧
    countRoundScores (onDisconnect w s).log = countRoundScores w.log :=
  ⟨onDisconnect_game_idx w s, onDisconnect_timers w s, onDisconnect_countRoundScores w s⟩

/-- C5 (code-bug evidence): a match formed at difficulty easy records
the per-difficulty limit (60 s: `questionTimeLimit = 60000` ms) and
announces 60 s to the clients in `game_start`, but the round deadline
timeout scheduled by `sendQuestion` fires 30000 ms (the constant
`QUESTION_TIME_LIMIT`) after the question goes out — question sent at
1000, deadline at 31000 — not after the recorded 60000 ms limit. -/
theorem C5_deadline_is_fixed_constant :
    getTimeLimit "easy" = 60 ∧
    c5Game.questionTimeLimit = 60000 ∧
    (startGameW c5World 0).log = [Emit.gameStart 1 60] ∧
    c5Started.timers = [Timer.deadline "q0" 31000] ∧
    QUESTION_TIME_LIMIT = 30000 ∧
    31000 - 1000 ≠ c5Game.questionTimeLimit := by decide

/-- C6 (amended): over any run of the event loop — any interleaving of
answer submissions, bot deliveries, disconnects and timer firings —
`currentQuestionIndex` is monotonically non-decreasing. -/
theorem C6_index_monotone (fuel : Nat) (w : World) (s : List TimedAct) (endTime : Nat) :
    w.game.currentQuestionIndex ≤ (runFull fuel w s endTime).game.currentQuestionIndex :=
  runFull_idx_le fuel w s endTime

/-- C6 (counterexample): the index CAN exceed `questions.length`: in
the race scenario (both answers just before the deadline of the only
question) the stale deadline schedules a second advance and the final
index is 2 in a 1-question match. -/
theorem C6_counterexample :
    raceFinal.game.questions.length = 1 ∧
    raceFinal.game.currentQuestionIndex = 2 := by decide

/-- C7: starting from any state whose answer records are unique per
(participant, question) pair, every run preserves that uniqueness;
answer lists are append-only along the run (no record is ever
overwritten or removed); and a second submission for an already
answered question id — by a real player or a bot — is rejected as an
early return that leaves the entire game state untouched (the real
player additionally receives an error). -/
theorem C7_unique_answer_records (fuel : Nat) (w : World) (s : List TimedAct)
    (endTime : Nat) (h : AnswersNodup w.game) :
    AnswersNodup (runFull fuel w s endTime).game ∧
    AnswersExtend w.game.players (runFull fuel w s endTime).game.players ∧
    (∀ (sockId qid aid : String) (now : Nat) (p : Player),
      findPlayer w.game.players sockId = some p → p.isActive = true →
      p.answers.any (fun a => a.questionId == qid) = true →
      submitAnswer w sockId qid aid now =
        { w with log := w.log ++ [Emit.errorMsg sockId "Answer already submitted"] } ∧
      handleBotAnswer w sockId qid aid now = w) :=
  ⟨answersNodup_runFull fuel w s endTime h,
   answersExtend_runFull fuel w s endTime,
   fun sockId qid aid now p hp hact hdup =>
     ⟨submitAnswer_duplicate w sockId qid aid now p hp hact hdup,
      handleBotAnswer_duplicate w sockId qid aid now p hp hact hdup⟩⟩

/-- C7 (witness): the uniqueness and append-only conclusions evaluated
on the concrete race run, and the duplicate-rejection conclusion
evaluated on alice resubmitting q1. -/
theorem C7_witness :
    AnswersNodup raceStarted.game ∧
    AnswersNodup (runFull 10 raceStarted raceScript 40000).game ∧
    AnswersExtend raceStarted.game.players
      (runFull 10 raceStarted raceScript 40000).game.players ∧
    submitAnswer c1After "sA" "q1" "b" 6000 =
      { c1After with log := c1After.log ++ [Emit.errorMsg "sA" "Answer already submitted"] } := by
  have h0 : AnswersNodup raceStarted.game := by decide
  have hmain := C7_unique_answer_records 10 raceStarted raceScript 40000 h0
  have h1 : AnswersNodup c1After.game := by decide
  have hdup := (C7_unique_answer_records 10 c1After [] 40000 h1).2.2 "sA" "q1" "b" 6000
    { id := "A", socketId := "sA", username := "alice", score := 100,
      answers := [⟨"q1", "b", true, 100, 5000, 4000⟩],
      isActive := true, isBot := false }
    (by decide) (by decide) (by decide)
  exact ⟨h0, hmain.1, hmain.2.1, hdup.1⟩

/-- C8: starting from any state in which every cumulative score equals
100 times the number of that player's correct answer records (as in a
fresh match, where both sides are 0), every run of the event loop
preserves this exact relation — each accepted correct answer adds
exactly 100 on acceptance, each incorrect one 0, with no rounding. -/
theorem C8_score_equals_100_per_correct (fuel : Nat) (w : World) (s : List TimedAct)
    (endTime : Nat) (h : ScoresOK w.game) : ScoresOK (runFull fuel w s endTime).game :=
  scoresOK_runFull fuel w s endTime h

/-- C8 (witness): the score relation evaluated on the concrete race
run, in which alice earns 100 and bob 0. -/
theorem C8_witness :
    ScoresOK raceStarted.game ∧
    ScoresOK (runFull 10 raceStarted raceScript 40000).game :=
  ⟨by decide, C8_score_equals_100_per_correct 10 raceStarted raceScript 40000 (by decide)⟩

/-- C9 (counterexample): an enqueue with the unrecognized preference
pair (klingon, impossible) does not fail: it creates the bucket
`klingon:impossible`, inserts the entry there, and reports queue
position 1 — falsifying the claim that such an enqueue fails with
`InvalidPreferences` and inserts nothing. -/
theorem C9_counterexample :
    "klingon" ∉ recognizedLanguages ∧
    "impossible" ∉ recognizedDifficulties ∧
    (addToQueue [] "s1" "zed" "P1" "klingon" "impossible").1 =
      [("klingon:impossible",
        [{ id := "P1", socketId := "s1", username := "zed",
           language := "klingon", difficulty := "impossible" }])] ∧
    (addToQueue [] "s1" "zed" "P1" "klingon" "impossible").2.1 = 1 := by decide

/-- C9 (amended): `addToQueue` performs no validation and never fails:
for every preference pair, recognized or not, it appends exactly one
entry to the bucket keyed by `language:difficulty` and returns position
and bucket size equal to the new bucket length. -/
theorem C9_enqueue_never_rejects (qs : Queues)
    (sockId username playerId language difficulty : String) :
    getBucket (addToQueue qs sockId username playerId language difficulty).1
        (getPreferenceKey language difficulty) =
      getBucket qs (getPreferenceKey language difficulty) ++
        [{ id := playerId, socketId := sockId, username := username,
           language := language, difficulty := difficulty }] ∧
    (addToQueue qs sockId username playerId language difficulty).2.1 =
      (getBucket qs (getPreferenceKey language difficulty)).length + 1 ∧
    (addToQueue qs sockId username playerId language difficulty).2.2 =
      (getBucket qs (getPreferenceKey language difficulty)).length + 1 := by
  unfold addToQueue
  refine ⟨getBucket_setBucket qs _ _, ?_, ?_⟩ <;> simp

/-- C10: every `round_scores` payload contains exactly the participants
whose active flag is true at broadcast time (the sorted payload's
player ids are a permutation of the active players' ids); and a
disconnect only flips the active flag — the seat, cumulative score and
answer records of every participant survive unchanged in match
state. -/
theorem C10_round_scores_exactly_active :
    (∀ (g : Game) (q : Question),
      List.Perm ((roundScoresPayload g q).map (fun e => e.playerId))
        ((g.players.filter (fun p => p.isActive)).map (fun p => p.id))) ∧
    (∀ (w : World) (s : String),
      (onDisconnect w s).game.players.map (fun p => (p.id, p.score, p.answers)) =
        w.game.players.map (fun p => (p.id, p.score, p.answers))) := by
  constructor
  · intro g q
    unfold roundScoresPayload
    refine ((sortByScoreDesc_perm _ _).map _).trans ?_
    rw [List.map_map]
    exact List.Perm.refl _
  · intro w s
    rcases onDisconnect_players_cases w s with hsame | heq
    · rw [hsame]
    · rw [heq]
      exact updatePlayer_map_of_proj _ _ _ _ (fun p => rfl)

/-- C1 (witness): the acceptance characterization applied to alice's
concrete q1 submission in `c1World`. -/
theorem C1_witness :
    (answersOf (submitAnswer c1World "sA" "q1" "b" 5000).game "sA").length =
      (answersOf c1World.game "sA").length + 1 :=
  (C1_submission_acceptance c1World "sA" "q1" "b" 5000).mpr
    ⟨mkPlayer "A" "sA" "alice", by decide, by decide, by decide,
     ⟨⟨"q1", "b"⟩, by decide, rfl⟩⟩
